import Mathlib

/-!
# express-csv-server: the upload and listing routes of `server.js`

A shallow embedding of `server.js`.  JavaScript strings are Lean strings, a
parsed CSV row is an association list from column name to value, the upload
directory is the list of its entry names, and a thrown exception is an
explicit result carrying the error message.
-/

namespace CsvServer

/-! ## Strings -/

/-- The result of `s.replace(/c/g, '')` for a pattern that is the single
literal character `c`: every occurrence of `c` is dropped. -/
def replaceAll (c : Char) : List Char → List Char
  | [] => []
  | x :: xs => if x = c then replaceAll c xs else x :: replaceAll c xs

/-- The result of `s.match(/^\d+$/)`: from the start of the input the greedy
`\d+` takes the longest run of digits, which has to be non-empty, and the
anchor then needs the end of the input.  The match is the matched text, and
`none` stands for `null`. -/
def matchDigits (s : List Char) : Option (List Char) :=
  let run := s.takeWhile Char.isDigit
  let rest := s.dropWhile Char.isDigit
  if run ≠ [] ∧ rest = [] then some run else none

/-- The function `validatePhone` of `server.js` (lines 43-45), on a string. -/
def validatePhone (phone : String) : Option (List Char) :=
  matchDigits (replaceAll ' ' (replaceAll '-' phone.data))

/-- The text left of a phone once every hyphen and every space is deleted, as
the specification words it. -/
def stripHyphensSpaces (p : String) : List Char :=
  p.data.filter (fun c => c ≠ '-' ∧ c ≠ ' ')

/-- The ten decimal digits. -/
def decimalDigits : List Char := ['0', '1', '2', '3', '4', '5', '6', '7', '8', '9']

/-- The result of `s.toLowerCase()`, on the letters `A`-`Z`.  The only use in
`server.js` is the test for the suffix `.csv`, and no character outside
`A`-`Z` has `.`, `c`, `s` or `v` as its lower case. -/
def toLowerCase (s : String) : String := String.mk (s.data.map Char.toLower)

/-- The result of `s.endsWith(t)`: `t` is not longer than `s` and the last
`t.length` characters of `s` are those of `t`. -/
def endsWith (s t : String) : Bool :=
  decide (t.data.length ≤ s.data.length) &&
    decide (s.data.drop (s.data.length - t.data.length) = t.data)

/-! ## Rows, responses and the upload directory -/

/-- A parsed CSV row: the object csv-parse builds under `columns: true`, from
column name to the text of the cell. -/
structure Record where
  fields : List (String × String)
deriving DecidableEq, Repr

/-- The property access `record[key]`; `none` stands for `undefined`. -/
def Record.get (r : Record) (key : String) : Option String :=
  r.fields.lookup key

/-- JavaScript truthiness of a value that is a string or `undefined`: only
`undefined` and the empty string are falsy. -/
def truthy : Option String → Bool
  | none => false
  | some s => s ≠ ""

/-- The conversion `String(v)` of a value that is a string or `undefined`. -/
def jsString : Option String → String
  | none => "undefined"
  | some s => s

/-- The JSON bodies `server.js` sends; a field that is `none` is absent. -/
structure Body where
  error : Option String := none
  message : Option String := none
  filename : Option String := none
  total_contacts : Option Nat := none
  invalid_rows : Option (List Record) := none
  details : Option String := none
  status : Option String := none
  files : Option (List String) := none
  total_files : Option Nat := none
deriving DecidableEq, Repr

/-- What a request ends in. -/
inductive Outcome where
  /-- The call `res.status(code).json(body)`. -/
  | json (code : Nat) (body : Body)
  /-- The multer middleware called `next(err)`: the route handler is skipped
  and `server.js`, which registers no error handler, sends nothing itself. -/
  | nextError (msg : String)
  /-- An exception left the handler through its `catch` block. -/
  | rejected (msg : String)
deriving DecidableEq, Repr

/-- The entries of the directory `UPLOAD_FOLDER`, each name at most once. -/
abbrev Dir := List String

/-- The call `fs.unlinkSync(path)` for the entry `name` of the upload
directory: it removes the entry, and throws when there is no such entry. -/
def unlinkSync (dir : Dir) (name : String) : Except String Dir :=
  if name ∈ dir then .ok (dir.filter (fun n => n ≠ name))
  else .error ("ENOENT: no such file or directory, unlink " ++ name)

/-- The disk storage of multer writing the entry `name`: a new entry, or the
old entry of that name overwritten. -/
def writeFile (dir : Dir) (name : String) : Dir :=
  if name ∈ dir then dir else dir ++ [name]

/-- The call `fs.readdirSync(UPLOAD_FOLDER)`. -/
def readdirSync (dir : Dir) : Except String (List String) := .ok dir

/-- The object `req.file` multer leaves for the handler; its `path` is the
entry `filename` of the upload directory. -/
structure File where
  originalname : String
  filename : String
deriving DecidableEq, Repr

/-- What the csv-parse stream of the stored file yields to the `for await`
loop: the rows in file order, and then either the end of the stream or an
error with its message. -/
structure RowStream where
  records : List Record
  failure : Option String
deriving DecidableEq, Repr

/-! ## The upload route -/

/-- The test of line 70: `!record.name || !record.phone`. -/
def missingColumns (record : Record) : Bool :=
  !truthy (record.get "name") || !truthy (record.get "phone")

/-- The test of line 79: `!validatePhone(record.phone)`. -/
def invalidPhone (record : Record) : Bool :=
  (validatePhone (jsString (record.get "phone"))).isNone

/-- How the `for await` loop of lines 66-82 ends. -/
inductive LoopExit where
  /-- The handler returned from inside the loop, with the directory left. -/
  | returned (code : Nat) (body : Body) (dir : Dir)
  /-- An exception was thrown inside the loop. -/
  | threw (msg : String)
  /-- The stream ended, with the final `records` and `invalidPhones`. -/
  | finished (records invalidPhones : List Record)
deriving DecidableEq, Repr

/-- The `for await` loop of lines 66-82 over the rows still to come, with the
arrays `records` and `invalidPhones` built so far. -/
def rowLoop (file : File) (dir : Dir) (failure : Option String) :
    List Record → List Record → List Record → LoopExit
  | [], records, invalidPhones =>
    match failure with
    | some e => .threw e
    | none => .finished records invalidPhones
  | record :: rest, records, invalidPhones =>
    let records := records ++ [record]
    if missingColumns record then
      match unlinkSync dir file.filename with
      | .error e => .threw e
      | .ok dir1 =>
        .returned 400
          { error := some "Missing required columns: name, phone",
            status := some "failed" } dir1
    else if invalidPhone record then
      rowLoop file dir failure rest records (invalidPhones ++ [record])
    else
      rowLoop file dir failure rest records invalidPhones

/-- How the `try` block of lines 49-107 ends. -/
inductive Completion where
  | sent (code : Nat) (body : Body)
  | threw (msg : String)
deriving DecidableEq, Repr

/-- The `try` block of the upload handler, lines 49-107, with the directory it
leaves. -/
def tryBlock (file : Option File) (stream : RowStream) (dir : Dir) : Completion × Dir :=
  match file with
  | none => (.sent 400 { error := some "No file uploaded", status := some "failed" }, dir)
  | some f =>
    match rowLoop f dir stream.failure stream.records [] [] with
    | .returned code body dir1 => (.sent code body, dir1)
    | .threw e => (.threw e, dir)
    | .finished records invalidPhones =>
      if invalidPhones.length > 0 then
        match unlinkSync dir f.filename with
        | .error e => (.threw e, dir)
        | .ok dir1 =>
          (.sent 400
            { error := some "Invalid phone numbers found",
              invalid_rows := some invalidPhones,
              status := some "failed" }, dir1)
      else if records.length = 0 then
        match unlinkSync dir f.filename with
        | .error e => (.threw e, dir)
        | .ok dir1 =>
          (.sent 400 { error := some "The CSV file is empty", status := some "failed" }, dir1)
      else
        (.sent 200
          { message := some "File uploaded successfully",
            filename := some f.filename,
            total_contacts := some records.length,
            status := some "success" }, dir)

/-- The handler of `POST /upload`, lines 48-121: the `try` block and the
`catch` block, which deletes the file of the request again and answers 500. -/
def uploadHandler (file : Option File) (stream : RowStream) (dir : Dir) : Outcome × Dir :=
  match tryBlock file stream dir with
  | (.sent code body, dir1) => (.json code body, dir1)
  | (.threw msg, dir1) =>
    match file with
    | some f =>
      match unlinkSync dir1 f.filename with
      | .error e => (.rejected e, dir1)
      | .ok dir2 =>
        (.json 500
          { error := some "An unexpected error occurred",
            details := some msg,
            status := some "failed" }, dir2)
    | none =>
      (.json 500
        { error := some "An unexpected error occurred",
          details := some msg,
          status := some "failed" }, dir1)

/-- The `fileFilter` of lines 34-39: an error for `cb(new Error(...))`, and
`true` for `cb(null, true)`. -/
def fileFilter (originalname : String) : Except String Bool :=
  if !endsWith (toLowerCase originalname) ".csv" then
    .error "Invalid file type. Please upload a CSV file"
  else .ok true

/-- The `filename` of the disk storage, lines 26-29; `timestamp` is the value
of `format(new Date(), 'yyyyMMdd_HHmmss')` at that moment. -/
def storageFilename (timestamp : String) : String :=
  "contacts_" ++ timestamp ++ ".csv"

/-- The file part of a multipart request: the name the client gave, the
formatted local time at which multer names the file, and what the CSV parser
yields for its content. -/
structure Upload where
  originalname : String
  timestamp : String
  stream : RowStream
deriving DecidableEq, Repr

/-- The route `POST /upload`: `upload.single('file')` and then the handler.
Without a file part `req.file` stays undefined; a file the filter rejects is
not stored and the error goes to `next`; a file the filter accepts is stored
under the generated name before the handler runs. -/
def postUpload (part : Option Upload) (dir : Dir) : Outcome × Dir :=
  match part with
  | none => uploadHandler none { records := [], failure := none } dir
  | some p =>
    match fileFilter p.originalname with
    | .error e => (.nextError e, dir)
    | .ok _ =>
      let filename := storageFilename p.timestamp
      uploadHandler (some { originalname := p.originalname, filename := filename })
        p.stream (writeFile dir filename)

/-! ## The listing route -/

/-- The handler of `GET /uploaded-files`, lines 124-137. -/
def listUploaded (dir : Dir) : Outcome :=
  match readdirSync dir with
  | .ok files => .json 200 { files := some files, total_files := some files.length }
  | .error e => .json 500 { error := some "Could not list files", details := some e }

/-- The directory after the upload requests `reqs`, served one after another
from the directory `dir`. -/
def runUploads (dir : Dir) (reqs : List (Option Upload)) : Dir :=
  reqs.foldl (fun d r => (postUpload r d).2) dir

/-- The outcome is a response with status 200. -/
def isSuccess : Outcome → Bool
  | .json code _ => code == 200
  | _ => false

/-- The generated names of the requests of `reqs` that are answered with
status 200, in request order, when the requests are served one after another
from the directory `dir`. -/
def successNames : Dir → List (Option Upload) → List String
  | _, [] => []
  | dir, r :: rest =>
    match r with
    | some p =>
      if isSuccess (postUpload r dir).1 then
        storageFilename p.timestamp :: successNames (postUpload r dir).2 rest
      else successNames (postUpload r dir).2 rest
    | none => successNames (postUpload r dir).2 rest

/-- The name under which multer stores the file of a request, when it stores
one: the request has a file part and the filter accepts its name. -/
def storedName : Option Upload → Option String
  | none => none
  | some p =>
    match fileFilter p.originalname with
    | .error _ => none
    | .ok _ => some (storageFilename p.timestamp)

/-- The request is answered with status 200.  The answer of the route does
not depend on the directory, and the empty one is taken here. -/
def succeeds (r : Option Upload) : Bool := isSuccess (postUpload r []).1

/-- The file of the request `b` is stored under the name under which the file
of the request `a` is stored. -/
def reusesName (a b : Option Upload) : Bool :=
  (storedName a).isSome && storedName b == storedName a

/-- A row has a `name` and a `phone` and neither is the empty string. -/
def hasNameAndPhone (r : Record) : Prop :=
  (∃ n, r.get "name" = some n ∧ n ≠ "") ∧ (∃ p, r.get "phone" = some p ∧ p ≠ "")

/-- The `name` or the `phone` of a row is missing or empty. -/
def lacksNameOrPhone (r : Record) : Prop :=
  r.get "name" = none ∨ r.get "name" = some "" ∨
    r.get "phone" = none ∨ r.get "phone" = some ""

/-- A row has a name and a phone, neither is empty, and the phone passes
`validatePhone`. -/
def wellFormed (r : Record) : Prop :=
  ∃ n p, r.get "name" = some n ∧ n ≠ "" ∧ r.get "phone" = some p ∧ p ≠ "" ∧
    (validatePhone p).isSome = true

/-! ## The bodies of the answers, and sample requests -/

/-- The body of the answer to a row without name or phone. -/
def missingBody : Body :=
  { error := some "Missing required columns: name, phone", status := some "failed" }

/-- The body of the answer to rows with invalid phones. -/
def invalidBody (invalidPhones : List Record) : Body :=
  { error := some "Invalid phone numbers found",
    invalid_rows := some invalidPhones,
    status := some "failed" }

/-- The body of the answer to a file without rows. -/
def emptyBody : Body :=
  { error := some "The CSV file is empty", status := some "failed" }

/-- The body of the answer to `n` valid rows stored as `filename`. -/
def successBody (filename : String) (n : Nat) : Body :=
  { message := some "File uploaded successfully",
    filename := some filename,
    total_contacts := some n,
    status := some "success" }

/-- The body of the answer of the `catch` block. -/
def unexpectedBody (msg : String) : Body :=
  { error := some "An unexpected error occurred",
    details := some msg,
    status := some "failed" }

/-- The body of the answer to a request without a file. -/
def noFileBody : Body :=
  { error := some "No file uploaded", status := some "failed" }

/-- The first row of the example of the specification. -/
def aliceRow : Record := { fields := [("name", "Alice"), ("phone", "555-1234")] }

/-- The second row of the example of the specification. -/
def bobRow : Record := { fields := [("name", "Bob"), ("phone", "555 5678")] }

/-- The row of the second example of the specification: a phone of letters. -/
def abcRow : Record := { fields := [("name", "Alice"), ("phone", "abc")] }

/-- A row with a valid phone and an empty name. -/
def namelessRow : Record := { fields := [("name", ""), ("phone", "555-1234")] }

/-- A stored file named for 1 January 2024, 00:00:00. -/
def sampleFile : File :=
  { originalname := "contacts.csv", filename := "contacts_20240101_000000.csv" }

/-- An upload of the two rows of the example of the specification. -/
def goodUpload : Upload :=
  { originalname := "contacts.csv", timestamp := "20240101_000000",
    stream := { records := [aliceRow, bobRow], failure := none } }

/-- An upload of an invalid phone, named in the same second as `goodUpload`. -/
def badUpload : Upload :=
  { originalname := "other.csv", timestamp := "20240101_000000",
    stream := { records := [abcRow], failure := none } }

/-- An upload of a text file. -/
def textUpload : Upload :=
  { originalname := "notes.txt", timestamp := "20240101_000000",
    stream := { records := [aliceRow], failure := none } }

/-! ## Lemmas on strings -/

theorem replaceAll_eq_filter (c : Char) (s : List Char) :
    replaceAll c s = s.filter (fun x => x ≠ c) := by
  induction s with
  | nil => rfl
  | cons x xs ih =>
    by_cases h : x = c
    · simp [replaceAll, h, ih]
    · simp [replaceAll, h, ih]

theorem strip_eq (p : String) :
    replaceAll ' ' (replaceAll '-' p.data) = stripHyphensSpaces p := by
  simp [replaceAll_eq_filter, stripHyphensSpaces, List.filter_filter, and_comm]

theorem isDigit_iff_mem (c : Char) : c.isDigit = true ↔ c ∈ decimalDigits := by
  constructor
  · intro h
    have h1 : 48 ≤ c.toNat ∧ c.toNat ≤ 57 := by
      simp [Char.isDigit, UInt32.le_def, Fin.le_def] at h
      exact h
    have h2 : c = Char.ofNat c.toNat := (Char.ofNat_toNat c).symm
    obtain ⟨ha, hb⟩ := h1
    generalize c.toNat = n at *
    subst h2
    interval_cases n <;> decide
  · intro h
    simp [decimalDigits] at h
    rcases h with h | h | h | h | h | h | h | h | h | h <;> subst h <;> decide

theorem matchDigits_isSome (s : List Char) :
    (matchDigits s).isSome = true ↔ s ≠ [] ∧ ∀ c ∈ s, c.isDigit = true := by
  unfold matchDigits
  simp only []
  split
  · rename_i h
    obtain ⟨h1, h2⟩ := h
    rw [List.dropWhile_eq_nil_iff] at h2
    refine ⟨fun _ => ⟨?_, h2⟩, fun _ => rfl⟩
    intro hs
    subst hs
    simp at h1
  · rename_i h
    simp only [Option.isSome_none, Bool.false_eq_true, false_iff]
    rintro ⟨h1, h2⟩
    apply h
    have h3 : s.takeWhile Char.isDigit = s := List.takeWhile_eq_self_iff.mpr h2
    refine ⟨by rw [h3]; exact h1, List.dropWhile_eq_nil_iff.mpr h2⟩

/-- The validator accepts a string exactly when the text left after the
hyphens and spaces is non-empty and all decimal digits. -/
theorem validatePhone_isSome (p : String) :
    (validatePhone p).isSome = true ↔
      stripHyphensSpaces p ≠ [] ∧ ∀ c ∈ stripHyphensSpaces p, c ∈ decimalDigits := by
  unfold validatePhone
  rw [strip_eq, matchDigits_isSome]
  simp only [isDigit_iff_mem]

theorem endsWith_iff (s t : String) :
    endsWith s t = true ↔ ∃ p, s.data = p ++ t.data := by
  unfold endsWith
  simp only [Bool.and_eq_true, decide_eq_true_eq]
  constructor
  · rintro ⟨_, h2⟩
    refine ⟨s.data.take (s.data.length - t.data.length), ?_⟩
    have h3 := (List.take_append_drop (s.data.length - t.data.length) s.data).symm
    rw [h2] at h3
    exact h3
  · rintro ⟨p, hp⟩
    rw [hp]
    simp

/-! ## Lemmas on the directory -/

theorem unlinkSync_of_mem (dir : Dir) (name : String) (h : name ∈ dir) :
    unlinkSync dir name = .ok (dir.filter (fun n => n ≠ name)) := by
  simp [unlinkSync, h]

theorem unlinkSync_of_not_mem (dir : Dir) (name : String) (h : name ∉ dir) :
    unlinkSync dir name =
      .error ("ENOENT: no such file or directory, unlink " ++ name) := by
  simp [unlinkSync, h]

theorem not_mem_unlinked (dir : Dir) (name : String) :
    name ∉ dir.filter (fun n => n ≠ name) := by
  simp

theorem mem_writeFile (dir : Dir) (name : String) : name ∈ writeFile dir name := by
  unfold writeFile
  split <;> simp_all

theorem writeFile_of_not_mem (dir : Dir) (name : String) (h : name ∉ dir) :
    writeFile dir name = dir ++ [name] := by
  simp [writeFile, h]

theorem unlinked_writeFile (dir : Dir) (name : String) (h : name ∉ dir) :
    (writeFile dir name).filter (fun n => n ≠ name) = dir := by
  rw [writeFile_of_not_mem dir name h, List.filter_append]
  simp only [ne_eq, decide_not, List.filter_cons, decide_True, Bool.not_true, Bool.false_eq_true,
    ↓reduceIte, List.filter_nil, List.append_nil]
  rw [List.filter_eq_self]
  intro a ha
  have : a ≠ name := fun e => h (e ▸ ha)
  simp [this]

/-! ## Lemmas on the rows -/

theorem truthy_eq_true (v : Option String) :
    truthy v = true ↔ ∃ s, v = some s ∧ s ≠ "" := by
  cases v with
  | none => simp [truthy]
  | some s => simp [truthy]

theorem missingColumns_eq_false (r : Record) :
    missingColumns r = false ↔ hasNameAndPhone r := by
  unfold missingColumns hasNameAndPhone
  rw [← truthy_eq_true, ← truthy_eq_true]
  cases truthy (r.get "name") <;> cases truthy (r.get "phone") <;> simp

theorem missingColumns_eq_true (r : Record) :
    missingColumns r = true ↔ lacksNameOrPhone r := by
  unfold missingColumns lacksNameOrPhone
  cases h1 : r.get "name" with
  | none => simp [truthy]
  | some n =>
    cases h2 : r.get "phone" with
    | none => simp [truthy]
    | some p => simp [truthy]

/-- The loop over rows that all have a name and a phone runs to the end of the
stream: the rows are appended to `records` and the rows with an invalid phone
to `invalidPhones`. -/
theorem rowLoop_present (f : File) (dir : Dir) (failure : Option String) :
    ∀ (rows records invalidPhones : List Record),
      (∀ r ∈ rows, missingColumns r = false) →
      rowLoop f dir failure rows records invalidPhones =
        match failure with
        | some e => .threw e
        | none => .finished (records ++ rows) (invalidPhones ++ rows.filter invalidPhone) := by
  intro rows
  induction rows with
  | nil =>
    intro records invalidPhones _
    cases failure <;> simp [rowLoop]
  | cons r rest ih =>
    intro records invalidPhones h
    have hr : missingColumns r = false := h r (List.mem_cons_self _ _)
    have hrest : ∀ x ∈ rest, missingColumns x = false :=
      fun x hx => h x (List.mem_cons_of_mem _ hx)
    by_cases hp : invalidPhone r = true
    · simp only [rowLoop, hr, hp, Bool.false_eq_true, ↓reduceIte]
      rw [ih _ _ hrest]
      cases failure <;> simp [List.filter_cons, hp]
    · simp only [rowLoop, hr, hp, Bool.false_eq_true, ↓reduceIte]
      rw [ih _ _ hrest]
      cases failure <;> simp [List.filter_cons, hp]

/-- The loop over rows of which one lacks a name or a phone ends at the first
such row with the deletion of the file. -/
theorem rowLoop_missing (f : File) (dir : Dir) (failure : Option String) :
    ∀ (rows records invalidPhones : List Record),
      (∃ r ∈ rows, missingColumns r = true) →
      rowLoop f dir failure rows records invalidPhones =
        match unlinkSync dir f.filename with
        | .error e => .threw e
        | .ok dir1 =>
          .returned 400
            { error := some "Missing required columns: name, phone",
              status := some "failed" } dir1 := by
  intro rows
  induction rows with
  | nil =>
    intro _ _ h
    obtain ⟨r, hr, _⟩ := h
    cases hr
  | cons r rest ih =>
    intro records invalidPhones h
    by_cases hr : missingColumns r = true
    · simp only [rowLoop, hr, ↓reduceIte]
    · have hrest : ∃ x ∈ rest, missingColumns x = true := by
        obtain ⟨x, hx, hxm⟩ := h
        rcases List.mem_cons.mp hx with e | hx
        · exact absurd (e ▸ hxm) hr
        · exact ⟨x, hx, hxm⟩
      by_cases hp : invalidPhone r = true
      · simp only [rowLoop, hr, hp, Bool.false_eq_true, ↓reduceIte]
        exact ih _ _ hrest
      · simp only [rowLoop, hr, hp, Bool.false_eq_true, ↓reduceIte]
        exact ih _ _ hrest

/-! ## Lemmas on the upload handler -/

theorem handler_missing (f : File) (rows : List Record) (failure : Option String) (dir : Dir)
    (hstored : f.filename ∈ dir) (hbad : ∃ r ∈ rows, missingColumns r = true) :
    uploadHandler (some f) { records := rows, failure := failure } dir =
      (.json 400 missingBody, dir.filter (fun n => n ≠ f.filename)) := by
  simp only [uploadHandler, tryBlock, rowLoop_missing f dir failure rows [] [] hbad,
    unlinkSync_of_mem dir f.filename hstored, missingBody]

theorem handler_failure (f : File) (rows : List Record) (e : String) (dir : Dir)
    (hstored : f.filename ∈ dir) (hrows : ∀ r ∈ rows, missingColumns r = false) :
    uploadHandler (some f) { records := rows, failure := some e } dir =
      (.json 500 (unexpectedBody e), dir.filter (fun n => n ≠ f.filename)) := by
  simp only [uploadHandler, tryBlock, rowLoop_present f dir (some e) rows [] [] hrows,
    unlinkSync_of_mem dir f.filename hstored, unexpectedBody]

theorem handler_invalid (f : File) (rows : List Record) (dir : Dir)
    (hstored : f.filename ∈ dir) (hrows : ∀ r ∈ rows, missingColumns r = false)
    (hinv : rows.filter invalidPhone ≠ []) :
    uploadHandler (some f) { records := rows, failure := none } dir =
      (.json 400 (invalidBody (rows.filter invalidPhone)),
        dir.filter (fun n => n ≠ f.filename)) := by
  have hlen : (rows.filter invalidPhone).length > 0 := List.length_pos.mpr hinv
  simp only [uploadHandler, tryBlock, rowLoop_present f dir none rows [] [] hrows,
    List.nil_append, hlen, ↓reduceIte, unlinkSync_of_mem dir f.filename hstored, invalidBody]

theorem handler_empty (f : File) (dir : Dir) (hstored : f.filename ∈ dir) :
    uploadHandler (some f) { records := [], failure := none } dir =
      (.json 400 emptyBody, dir.filter (fun n => n ≠ f.filename)) := by
  simp [uploadHandler, tryBlock, rowLoop, unlinkSync_of_mem dir f.filename hstored, emptyBody]

theorem handler_valid (f : File) (rows : List Record) (dir : Dir)
    (hne : rows ≠ []) (hrows : ∀ r ∈ rows, missingColumns r = false)
    (hinv : rows.filter invalidPhone = []) :
    uploadHandler (some f) { records := rows, failure := none } dir =
      (.json 200 (successBody f.filename rows.length), dir) := by
  have hlen : ¬ rows.length = 0 := fun h => hne (List.length_eq_zero.mp h)
  simp only [uploadHandler, tryBlock, rowLoop_present f dir none rows [] [] hrows,
    List.nil_append, hinv, List.length_nil, gt_iff_lt, lt_self_iff_false, ↓reduceIte, hlen,
    successBody]

/-- With the file of the request in the directory, the handler answers 200
and leaves the directory as it is, or answers another status and has deleted
the file. -/
theorem handler_stored (f : File) (stream : RowStream) (dir : Dir)
    (hstored : f.filename ∈ dir) :
    (∃ body, uploadHandler (some f) stream dir = (.json 200 body, dir)) ∨
    (∃ code body, code ≠ 200 ∧
      uploadHandler (some f) stream dir =
        (.json code body, dir.filter (fun n => n ≠ f.filename))) := by
  obtain ⟨rows, failure⟩ := stream
  by_cases hbad : ∃ r ∈ rows, missingColumns r = true
  · exact Or.inr ⟨400, _, by decide, handler_missing f rows failure dir hstored hbad⟩
  · have hrows : ∀ r ∈ rows, missingColumns r = false := by
      intro r hr
      cases h : missingColumns r
      · rfl
      · exact absurd ⟨r, hr, h⟩ hbad
    cases failure with
    | some e => exact Or.inr ⟨500, _, by decide, handler_failure f rows e dir hstored hrows⟩
    | none =>
      by_cases hinv : rows.filter invalidPhone = []
      · by_cases hne : rows = []
        · subst hne
          exact Or.inr ⟨400, _, by decide, handler_empty f dir hstored⟩
        · exact Or.inl ⟨_, handler_valid f rows dir hne hrows hinv⟩
      · exact Or.inr ⟨400, _, by decide, handler_invalid f rows dir hstored hrows hinv⟩

theorem handler_missing_gone (f : File) (rows : List Record) (failure : Option String)
    (dir : Dir) (hgone : f.filename ∉ dir) (hbad : ∃ r ∈ rows, missingColumns r = true) :
    uploadHandler (some f) { records := rows, failure := failure } dir =
      (.rejected ("ENOENT: no such file or directory, unlink " ++ f.filename), dir) := by
  simp only [uploadHandler, tryBlock, rowLoop_missing f dir failure rows [] [] hbad,
    unlinkSync_of_not_mem dir f.filename hgone]

theorem handler_failure_gone (f : File) (rows : List Record) (e : String) (dir : Dir)
    (hgone : f.filename ∉ dir) (hrows : ∀ r ∈ rows, missingColumns r = false) :
    uploadHandler (some f) { records := rows, failure := some e } dir =
      (.rejected ("ENOENT: no such file or directory, unlink " ++ f.filename), dir) := by
  simp only [uploadHandler, tryBlock, rowLoop_present f dir (some e) rows [] [] hrows,
    unlinkSync_of_not_mem dir f.filename hgone]

theorem handler_invalid_gone (f : File) (rows : List Record) (dir : Dir)
    (hgone : f.filename ∉ dir) (hrows : ∀ r ∈ rows, missingColumns r = false)
    (hinv : rows.filter invalidPhone ≠ []) :
    uploadHandler (some f) { records := rows, failure := none } dir =
      (.rejected ("ENOENT: no such file or directory, unlink " ++ f.filename), dir) := by
  have hlen : (rows.filter invalidPhone).length > 0 := List.length_pos.mpr hinv
  simp only [uploadHandler, tryBlock, rowLoop_present f dir none rows [] [] hrows,
    List.nil_append, hlen, ↓reduceIte, unlinkSync_of_not_mem dir f.filename hgone]

/-- The answers of the handler to a stream with at least one row. -/
theorem handler_nonempty_cases (f : File) (rows : List Record) (failure : Option String)
    (dir : Dir) (hne : rows ≠ []) :
    (uploadHandler (some f) { records := rows, failure := failure } dir).1 =
        .json 400 missingBody ∨
    (∃ e, (uploadHandler (some f) { records := rows, failure := failure } dir).1 =
        .json 500 (unexpectedBody e)) ∨
    (∃ l, (uploadHandler (some f) { records := rows, failure := failure } dir).1 =
        .json 400 (invalidBody l)) ∨
    (∃ n, (uploadHandler (some f) { records := rows, failure := failure } dir).1 =
        .json 200 (successBody f.filename n)) ∨
    (∃ e, (uploadHandler (some f) { records := rows, failure := failure } dir).1 =
        .rejected e) := by
  by_cases hstored : f.filename ∈ dir
  · by_cases hbad : ∃ r ∈ rows, missingColumns r = true
    · exact Or.inl (by rw [handler_missing f rows failure dir hstored hbad])
    · have hrows : ∀ r ∈ rows, missingColumns r = false := by
        intro r hr
        cases h : missingColumns r
        · rfl
        · exact absurd ⟨r, hr, h⟩ hbad
      cases failure with
      | some e =>
        exact Or.inr (Or.inl ⟨e, by rw [handler_failure f rows e dir hstored hrows]⟩)
      | none =>
        by_cases hinv : rows.filter invalidPhone = []
        · exact Or.inr (Or.inr (Or.inr (Or.inl
            ⟨_, by rw [handler_valid f rows dir hne hrows hinv]⟩)))
        · exact Or.inr (Or.inr (Or.inl
            ⟨_, by rw [handler_invalid f rows dir hstored hrows hinv]⟩))
  · by_cases hbad : ∃ r ∈ rows, missingColumns r = true
    · exact Or.inr (Or.inr (Or.inr (Or.inr
        ⟨_, by rw [handler_missing_gone f rows failure dir hstored hbad]⟩)))
    · have hrows : ∀ r ∈ rows, missingColumns r = false := by
        intro r hr
        cases h : missingColumns r
        · rfl
        · exact absurd ⟨r, hr, h⟩ hbad
      cases failure with
      | some e =>
        exact Or.inr (Or.inr (Or.inr (Or.inr
          ⟨_, by rw [handler_failure_gone f rows e dir hstored hrows]⟩)))
      | none =>
        by_cases hinv : rows.filter invalidPhone = []
        · exact Or.inr (Or.inr (Or.inr (Or.inl
            ⟨_, by rw [handler_valid f rows dir hne hrows hinv]⟩)))
        · exact Or.inr (Or.inr (Or.inr (Or.inr
            ⟨_, by rw [handler_invalid_gone f rows dir hstored hrows hinv]⟩)))

theorem invalidPhone_eq_false (r : Record) :
    invalidPhone r = false ↔ (validatePhone (jsString (r.get "phone"))).isSome = true := by
  unfold invalidPhone
  cases validatePhone (jsString (r.get "phone")) <;> simp

theorem wellFormed_iff (r : Record) :
    wellFormed r ↔ missingColumns r = false ∧ invalidPhone r = false := by
  rw [missingColumns_eq_false, invalidPhone_eq_false]
  unfold wellFormed hasNameAndPhone
  constructor
  · rintro ⟨n, p, hn, hn0, hp, hp0, hv⟩
    exact ⟨⟨⟨n, hn, hn0⟩, ⟨p, hp, hp0⟩⟩, by rw [hp]; exact hv⟩
  · rintro ⟨⟨⟨n, hn, hn0⟩, ⟨p, hp, hp0⟩⟩, hv⟩
    exact ⟨n, p, hn, hn0, hp, hp0, by rw [hp] at hv; exact hv⟩

theorem filter_invalid_eq_nil (rows : List Record) (h : ∀ r ∈ rows, wellFormed r) :
    rows.filter invalidPhone = [] := by
  rw [List.filter_eq_nil_iff]
  intro r hr
  simp [((wellFormed_iff r).mp (h r hr)).2]

theorem exists_missing_or_all_present (rows : List Record) :
    (∃ r ∈ rows, missingColumns r = true) ∨ ∀ r ∈ rows, missingColumns r = false := by
  by_cases hbad : ∃ r ∈ rows, missingColumns r = true
  · exact Or.inl hbad
  · refine Or.inr fun r hr => ?_
    cases h : missingColumns r
    · rfl
    · exact absurd ⟨r, hr, h⟩ hbad

/-! ## The claims -/

/-- C1: for every N ≥ 1 and every list of N parsed rows that each have a
non-empty name, a non-empty phone and a phone that passes `validatePhone`,
the upload handler answers 200 with status "success", the generated name of
the stored file and `total_contacts` equal to N, and it leaves the upload
directory, so also the stored file, as it was. -/
theorem C1_valid_rows_accepted (f : File) (rows : List Record) (dir : Dir) (N : Nat)
    (hN : 1 ≤ N) (hlen : rows.length = N) (hrows : ∀ r ∈ rows, wellFormed r) :
    uploadHandler (some f) { records := rows, failure := none } dir =
      (.json 200
        { message := some "File uploaded successfully",
          filename := some f.filename,
          total_contacts := some N,
          status := some "success" }, dir) := by
  have hne : rows ≠ [] := by
    intro h
    subst h
    simp at hlen
    omega
  have hpresent : ∀ r ∈ rows, missingColumns r = false :=
    fun r hr => ((wellFormed_iff r).mp (hrows r hr)).1
  rw [handler_valid f rows dir hne hpresent (filter_invalid_eq_nil rows hrows), hlen]
  rfl

/-- The two rows of the example of the specification are accepted. -/
theorem C1_valid_rows_accepted_witness :
    uploadHandler (some sampleFile) { records := [aliceRow, bobRow], failure := none }
        [sampleFile.filename] =
      (.json 200
        { message := some "File uploaded successfully",
          filename := some sampleFile.filename,
          total_contacts := some 2,
          status := some "success" }, [sampleFile.filename]) :=
  C1_valid_rows_accepted sampleFile [aliceRow, bobRow] [sampleFile.filename] 2
    (by decide) rfl
    (fun r hr => by
      simp only [List.mem_cons, List.mem_singleton, List.not_mem_nil, or_false] at hr
      rcases hr with rfl | rfl <;> exact (wellFormed_iff _).mpr (by decide))

/-- C2: when some parsed row lacks a name or a phone, or has an empty one, the
upload handler deletes the stored file and answers 400 with the error "Missing
required columns: name, phone", status "failed" and no `invalid_rows`,
wherever the row is, whatever the phones of the other rows are and however
the stream ends after it. -/
theorem C2_missing_columns_win (f : File) (rows : List Record) (failure : Option String)
    (dir : Dir) (hstored : f.filename ∈ dir) (hbad : ∃ r ∈ rows, lacksNameOrPhone r) :
    uploadHandler (some f) { records := rows, failure := failure } dir =
      (.json 400
        { error := some "Missing required columns: name, phone",
          invalid_rows := none,
          status := some "failed" }, dir.filter (fun n => n ≠ f.filename)) ∧
    f.filename ∉ (uploadHandler (some f) { records := rows, failure := failure } dir).2 := by
  have hbad2 : ∃ r ∈ rows, missingColumns r = true := by
    obtain ⟨r, hr, h⟩ := hbad
    exact ⟨r, hr, (missingColumns_eq_true r).mpr h⟩
  rw [handler_missing f rows failure dir hstored hbad2]
  exact ⟨rfl, not_mem_unlinked dir f.filename⟩

/-- A row with an invalid phone before a row with an empty name: the answer is
the one for missing columns. -/
theorem C2_missing_columns_win_witness :
    uploadHandler (some sampleFile) { records := [abcRow, namelessRow], failure := none }
        [sampleFile.filename] =
      (.json 400
        { error := some "Missing required columns: name, phone",
          invalid_rows := none,
          status := some "failed" },
        [sampleFile.filename].filter (fun n => n ≠ sampleFile.filename)) ∧
    sampleFile.filename ∉
      (uploadHandler (some sampleFile) { records := [abcRow, namelessRow], failure := none }
        [sampleFile.filename]).2 :=
  C2_missing_columns_win sampleFile [abcRow, namelessRow] none [sampleFile.filename]
    (by decide) ⟨namelessRow, by decide, Or.inr (Or.inl (by decide))⟩

/-- C3 fails as stated: the row `abcRow` has a phone with a non-digit, and in
a file that also holds a row with an empty name the answer is the one for
missing columns, which has no `invalid_rows`. -/
theorem C3_counterexample :
    abcRow ∈ [abcRow, namelessRow] ∧
    abcRow.get "phone" = some "abc" ∧
    (∃ c ∈ stripHyphensSpaces "abc", c ∉ decimalDigits) ∧
    uploadHandler (some sampleFile) { records := [abcRow, namelessRow], failure := none }
        [sampleFile.filename] =
      (.json 400 missingBody, []) ∧
    missingBody.invalid_rows = none := by
  refine ⟨by decide, by decide, ⟨'a', by decide, by decide⟩, by decide, rfl⟩

/-- C3, amended: in a list of parsed rows that all have a non-empty name and a
non-empty phone, for every row whose phone, once hyphens and spaces are
removed, is empty or has a character that is not a digit, the upload handler
answers 400 "Invalid phone numbers found" with an `invalid_rows` list that
contains the row, and the stored file is deleted. -/
theorem C3_invalid_phone_reported (f : File) (rows : List Record) (dir : Dir)
    (r : Record) (p : String) (hstored : f.filename ∈ dir)
    (hall : ∀ x ∈ rows, hasNameAndPhone x) (hr : r ∈ rows) (hp : r.get "phone" = some p)
    (hbad : stripHyphensSpaces p = [] ∨ ∃ c ∈ stripHyphensSpaces p, c ∉ decimalDigits) :
    uploadHandler (some f) { records := rows, failure := none } dir =
      (.json 400
        { error := some "Invalid phone numbers found",
          invalid_rows := some (rows.filter invalidPhone),
          status := some "failed" }, dir.filter (fun n => n ≠ f.filename)) ∧
    r ∈ rows.filter invalidPhone ∧
    f.filename ∉ (uploadHandler (some f) { records := rows, failure := none } dir).2 := by
  have hinvalid : invalidPhone r = true := by
    cases h : invalidPhone r
    · exfalso
      have hv := (invalidPhone_eq_false r).mp h
      rw [hp] at hv
      have := (validatePhone_isSome p).mp hv
      rcases hbad with h0 | ⟨c, hc, hcd⟩
      · exact this.1 h0
      · exact hcd (this.2 c hc)
    · rfl
  have hmem : r ∈ rows.filter invalidPhone := List.mem_filter.mpr ⟨hr, hinvalid⟩
  have hpresent : ∀ x ∈ rows, missingColumns x = false :=
    fun x hx => (missingColumns_eq_false x).mpr (hall x hx)
  rw [handler_invalid f rows dir hstored hpresent (List.ne_nil_of_mem hmem)]
  exact ⟨rfl, hmem, not_mem_unlinked dir f.filename⟩

/-- The second example of the specification: the row of Alice with the phone
`abc` is reported. -/
theorem C3_invalid_phone_reported_witness :
    uploadHandler (some sampleFile) { records := [abcRow, bobRow], failure := none }
        [sampleFile.filename] =
      (.json 400
        { error := some "Invalid phone numbers found",
          invalid_rows := some ([abcRow, bobRow].filter invalidPhone),
          status := some "failed" },
        [sampleFile.filename].filter (fun n => n ≠ sampleFile.filename)) ∧
    abcRow ∈ [abcRow, bobRow].filter invalidPhone ∧
    sampleFile.filename ∉
      (uploadHandler (some sampleFile) { records := [abcRow, bobRow], failure := none }
        [sampleFile.filename]).2 :=
  C3_invalid_phone_reported sampleFile [abcRow, bobRow] [sampleFile.filename] abcRow "abc"
    (by decide)
    (fun x hx => by
      simp only [List.mem_cons, List.mem_singleton, List.not_mem_nil, or_false] at hx
      rcases hx with rfl | rfl <;> exact (missingColumns_eq_false _).mp (by decide))
    (by decide) (by decide) (Or.inr ⟨'a', by decide, by decide⟩)

/-- C4: when the file of the request is in the upload directory and the parser
ends without an error, the handler responds, and the file is still in the
directory afterwards exactly when there is at least one row and every row has
a non-empty name, a non-empty phone and a phone that passes `validatePhone`;
on every other outcome the file is gone. -/
theorem C4_retained_iff_valid (f : File) (rows : List Record) (dir : Dir)
    (hstored : f.filename ∈ dir) :
    (∃ code body,
      (uploadHandler (some f) { records := rows, failure := none } dir).1 = .json code body) ∧
    (f.filename ∈ (uploadHandler (some f) { records := rows, failure := none } dir).2 ↔
      rows ≠ [] ∧ ∀ r ∈ rows, wellFormed r) := by
  rcases exists_missing_or_all_present rows with hbad | hpresent
  · rw [handler_missing f rows none dir hstored hbad]
    refine ⟨⟨_, _, rfl⟩, ?_⟩
    constructor
    · intro h
      exact absurd h (not_mem_unlinked dir f.filename)
    · rintro ⟨_, hall⟩
      obtain ⟨r, hr, hm⟩ := hbad
      have := ((wellFormed_iff r).mp (hall r hr)).1
      rw [hm] at this
      cases this
  · by_cases hinv : rows.filter invalidPhone = []
    · by_cases hne : rows = []
      · subst hne
        rw [handler_empty f dir hstored]
        refine ⟨⟨_, _, rfl⟩, ?_⟩
        constructor
        · intro h
          exact absurd h (not_mem_unlinked dir f.filename)
        · rintro ⟨h, _⟩
          exact absurd rfl h
      · rw [handler_valid f rows dir hne hpresent hinv]
        refine ⟨⟨_, _, rfl⟩, ?_⟩
        constructor
        · intro _
          refine ⟨hne, fun r hr => (wellFormed_iff r).mpr ⟨hpresent r hr, ?_⟩⟩
          rw [List.filter_eq_nil_iff] at hinv
          simpa using hinv r hr
        · intro _
          exact hstored
    · rw [handler_invalid f rows dir hstored hpresent hinv]
      refine ⟨⟨_, _, rfl⟩, ?_⟩
      constructor
      · intro h
        exact absurd h (not_mem_unlinked dir f.filename)
      · rintro ⟨_, hall⟩
        exact absurd (filter_invalid_eq_nil rows hall) hinv

/-- The file of the example of the specification is kept, and its rows are
valid. -/
theorem C4_retained_iff_valid_witness :
    (∃ code body,
      (uploadHandler (some sampleFile) { records := [aliceRow, bobRow], failure := none }
        [sampleFile.filename]).1 = .json code body) ∧
    (sampleFile.filename ∈
        (uploadHandler (some sampleFile) { records := [aliceRow, bobRow], failure := none }
          [sampleFile.filename]).2 ↔
      [aliceRow, bobRow] ≠ [] ∧ ∀ r ∈ [aliceRow, bobRow], wellFormed r) :=
  C4_retained_iff_valid sampleFile [aliceRow, bobRow] [sampleFile.filename] (by decide)

/-- C5: for every string, `validatePhone` returns a match exactly when the
string with every hyphen and every space deleted is non-empty and made of the
decimal digits only; "555-1234" and "555 5678" are valid, and "abc", the empty
string and " - " are not. -/
theorem C5_validatePhone_iff :
    (∀ p : String,
      (validatePhone p).isSome = true ↔
        stripHyphensSpaces p ≠ [] ∧ ∀ c ∈ stripHyphensSpaces p, c ∈ decimalDigits) ∧
    (validatePhone "555-1234").isSome = true ∧
    (validatePhone "555 5678").isSome = true ∧
    validatePhone "abc" = none ∧
    validatePhone "" = none ∧
    validatePhone " - " = none :=
  ⟨validatePhone_isSome, by decide, by decide, by decide, by decide, by decide⟩

/-- C6: a stored file that parses to no row is deleted and answered with 400,
the error "The CSV file is empty" and status "failed"; and whenever the
handler answers with that error, the list of parsed rows is empty. -/
theorem C6_empty_file (f : File) (dir : Dir) (hstored : f.filename ∈ dir) :
    uploadHandler (some f) { records := [], failure := none } dir =
      (.json 400 { error := some "The CSV file is empty", status := some "failed" },
        dir.filter (fun n => n ≠ f.filename)) ∧
    f.filename ∉ (uploadHandler (some f) { records := [], failure := none } dir).2 ∧
    ∀ (file : Option File) (stream : RowStream) (d : Dir) (code : Nat) (body : Body),
      (uploadHandler file stream d).1 = .json code body →
      body.error = some "The CSV file is empty" → stream.records = [] := by
  refine ⟨handler_empty f dir hstored, ?_, ?_⟩
  · rw [handler_empty f dir hstored]
    exact not_mem_unlinked dir f.filename
  · intro file stream d code body hout herr
    obtain ⟨rows, failure⟩ := stream
    by_contra hne
    have hne : rows ≠ [] := hne
    cases file with
    | none =>
      simp only [uploadHandler, tryBlock, Outcome.json.injEq] at hout
      rw [← hout.2] at herr
      revert herr
      decide
    | some g =>
      rcases handler_nonempty_cases g rows failure d hne with
        h | ⟨e, h⟩ | ⟨l, h⟩ | ⟨n, h⟩ | ⟨e, h⟩
      · rw [h, Outcome.json.injEq] at hout
        rw [← hout.2] at herr
        revert herr
        decide
      · rw [h, Outcome.json.injEq] at hout
        rw [← hout.2] at herr
        simp only [unexpectedBody] at herr
        revert herr
        decide
      · rw [h, Outcome.json.injEq] at hout
        rw [← hout.2] at herr
        simp only [invalidBody] at herr
        revert herr
        decide
      · rw [h, Outcome.json.injEq] at hout
        rw [← hout.2] at herr
        simp only [successBody] at herr
        cases herr
      · rw [h] at hout
        cases hout

/-- The header-only file stored as `sampleFile` is answered as empty. -/
theorem C6_empty_file_witness :
    uploadHandler (some sampleFile) { records := [], failure := none } [sampleFile.filename] =
      (.json 400 { error := some "The CSV file is empty", status := some "failed" },
        [sampleFile.filename].filter (fun n => n ≠ sampleFile.filename)) ∧
    sampleFile.filename ∉
      (uploadHandler (some sampleFile) { records := [], failure := none }
        [sampleFile.filename]).2 ∧
    ∀ (file : Option File) (stream : RowStream) (d : Dir) (code : Nat) (body : Body),
      (uploadHandler file stream d).1 = .json code body →
      body.error = some "The CSV file is empty" → stream.records = [] :=
  C6_empty_file sampleFile [sampleFile.filename] (by decide)

/-- C7: the file filter accepts a file name exactly when its lower-cased form
ends with ".csv"; every other name is rejected with the error "Invalid file
type. Please upload a CSV file", nothing is stored and the upload directory is
left unchanged by the request. -/
theorem C7_file_filter (s : String) :
    (fileFilter s = .ok true ↔ ∃ p, (toLowerCase s).data = p ++ ".csv".data) ∧
    ((¬ ∃ p, (toLowerCase s).data = p ++ ".csv".data) →
      fileFilter s = .error "Invalid file type. Please upload a CSV file" ∧
      ∀ (timestamp : String) (stream : RowStream) (dir : Dir),
        postUpload (some { originalname := s, timestamp := timestamp, stream := stream }) dir =
          (.nextError "Invalid file type. Please upload a CSV file", dir)) := by
  rw [← endsWith_iff]
  cases h : endsWith (toLowerCase s) ".csv"
  · have hf : fileFilter s = .error "Invalid file type. Please upload a CSV file" := by
      simp [fileFilter, h]
    refine ⟨by simp [hf], fun _ => ⟨hf, fun timestamp stream dir => ?_⟩⟩
    simp only [postUpload, hf]
  · have hf : fileFilter s = .ok true := by simp [fileFilter, h]
    exact ⟨by simp [hf], fun hn => absurd rfl hn⟩

/-- The name `notes.txt` is rejected and the directory is left as it was. -/
theorem C7_file_filter_witness :
    fileFilter "notes.txt" = .error "Invalid file type. Please upload a CSV file" ∧
    ∀ (timestamp : String) (stream : RowStream) (dir : Dir),
      postUpload
          (some { originalname := "notes.txt", timestamp := timestamp, stream := stream }) dir =
        (.nextError "Invalid file type. Please upload a CSV file", dir) :=
  (C7_file_filter "notes.txt").2 (fun h => by
    have := (endsWith_iff _ _).mpr h
    revert this
    decide)

theorem postUpload_none (dir : Dir) : postUpload none dir = (.json 400 noFileBody, dir) := by
  simp [postUpload, uploadHandler, tryBlock, noFileBody]

/-- With the file of the request in the directory, the answer of the handler
does not depend on what else the directory holds. -/
theorem handler_outcome_indep (f : File) (stream : RowStream) (dir1 dir2 : Dir)
    (h1 : f.filename ∈ dir1) (h2 : f.filename ∈ dir2) :
    (uploadHandler (some f) stream dir1).1 = (uploadHandler (some f) stream dir2).1 := by
  obtain ⟨rows, failure⟩ := stream
  rcases exists_missing_or_all_present rows with hbad | hrows
  · rw [handler_missing f rows failure dir1 h1 hbad, handler_missing f rows failure dir2 h2 hbad]
  · cases failure with
    | some e =>
      rw [handler_failure f rows e dir1 h1 hrows, handler_failure f rows e dir2 h2 hrows]
    | none =>
      by_cases hinv : rows.filter invalidPhone = []
      · by_cases hne : rows = []
        · subst hne
          rw [handler_empty f dir1 h1, handler_empty f dir2 h2]
        · rw [handler_valid f rows dir1 hne hrows hinv, handler_valid f rows dir2 hne hrows hinv]
      · rw [handler_invalid f rows dir1 h1 hrows hinv, handler_invalid f rows dir2 h2 hrows hinv]

theorem postUpload_outcome_indep (r : Option Upload) (dir : Dir) :
    (postUpload r dir).1 = (postUpload r []).1 := by
  cases r with
  | none => rw [postUpload_none, postUpload_none]
  | some p =>
    cases hf : fileFilter p.originalname with
    | error e => simp only [postUpload, hf]
    | ok b =>
      simp only [postUpload, hf]
      exact handler_outcome_indep _ _ _ _ (mem_writeFile _ _) (mem_writeFile _ _)

/-- When no request stores its file under a name of the directory or under the
name of an earlier successful request, the requests leave the directory with
the names of the successful requests appended. -/
theorem runUploads_eq (reqs : List (Option Upload)) :
    ∀ dir : Dir, (∀ n ∈ reqs.filterMap storedName, n ∉ dir) →
      reqs.Pairwise (fun a b => succeeds a = true → reusesName a b = false) →
      runUploads dir reqs = dir ++ successNames dir reqs := by
  induction reqs with
  | nil =>
    intro dir _ _
    simp [runUploads, successNames]
  | cons r rest ih =>
    intro dir hnew hpair
    have hrun : runUploads dir (r :: rest) = runUploads (postUpload r dir).2 rest := by
      simp [runUploads]
    rw [hrun]
    obtain ⟨hhead, hpair2⟩ := List.pairwise_cons.mp hpair
    cases r with
    | none =>
      have hs : storedName none = none := rfl
      rw [List.filterMap_cons_none hs] at hnew
      simp only [successNames, postUpload_none]
      exact ih dir hnew hpair2
    | some p =>
      cases hf : fileFilter p.originalname with
      | error e =>
        have hs : storedName (some p) = none := by simp [storedName, hf]
        rw [List.filterMap_cons_none hs] at hnew
        have hp : postUpload (some p) dir = (.nextError e, dir) := by
          simp only [postUpload, hf]
        simp only [successNames, hp, isSuccess, Bool.false_eq_true, ↓reduceIte]
        exact ih dir hnew hpair2
      | ok b =>
        have hs : storedName (some p) = some (storageFilename p.timestamp) := by
          simp [storedName, hf]
        rw [List.filterMap_cons_some hs] at hnew
        have hn : storageFilename p.timestamp ∉ dir := hnew _ (List.mem_cons_self _ _)
        have hrestnew : ∀ n ∈ rest.filterMap storedName, n ∉ dir :=
          fun n h => hnew n (List.mem_cons_of_mem _ h)
        have hp : postUpload (some p) dir =
            uploadHandler
              (some { originalname := p.originalname, filename := storageFilename p.timestamp })
              p.stream (writeFile dir (storageFilename p.timestamp)) := by
          simp only [postUpload, hf]
        rcases handler_stored
            { originalname := p.originalname, filename := storageFilename p.timestamp }
            p.stream (writeFile dir (storageFilename p.timestamp))
            (mem_writeFile dir _) with ⟨body, h⟩ | ⟨code, body, hcode, h⟩
        · rw [h] at hp
          have hsucc : succeeds (some p) = true := by
            unfold succeeds
            rw [← postUpload_outcome_indep (some p) dir, hp]
            rfl
          simp only [successNames, hp, isSuccess, beq_self_eq_true, ↓reduceIte]
          rw [writeFile_of_not_mem dir _ hn]
          rw [ih (dir ++ [storageFilename p.timestamp]) ?_ hpair2]
          · simp
          · intro n hmem hin
            rcases List.mem_append.mp hin with h1 | h1
            · exact hrestnew n hmem h1
            · rw [List.mem_singleton] at h1
              subst h1
              obtain ⟨x, hx, hxn⟩ := List.mem_filterMap.mp hmem
              have := hhead x hx hsucc
              simp [reusesName, hs, hxn] at this
        · rw [h] at hp
          have hc : (code == 200) = false := by simpa using hcode
          simp only [successNames, hp, isSuccess, hc, Bool.false_eq_true, ↓reduceIte]
          rw [unlinked_writeFile dir _ hn]
          exact ih dir hrestnew hpair2

theorem nodup_writeFile (dir : Dir) (name : String) (h : dir.Nodup) :
    (writeFile dir name).Nodup := by
  unfold writeFile
  split
  · exact h
  · rename_i hn
    rw [List.nodup_append]
    refine ⟨h, List.nodup_singleton _, ?_⟩
    intro x hx hx1
    rw [List.mem_singleton] at hx1
    exact hn (hx1 ▸ hx)

/-- The route keeps the entries of the directory distinct. -/
theorem nodup_postUpload (r : Option Upload) (dir : Dir) (h : dir.Nodup) :
    (postUpload r dir).2.Nodup := by
  cases r with
  | none =>
    rw [postUpload_none]
    exact h
  | some p =>
    cases hf : fileFilter p.originalname with
    | error e =>
      simp only [postUpload, hf]
      exact h
    | ok b =>
      simp only [postUpload, hf]
      have hw := nodup_writeFile dir (storageFilename p.timestamp) h
      rcases handler_stored
          { originalname := p.originalname, filename := storageFilename p.timestamp }
          p.stream (writeFile dir (storageFilename p.timestamp))
          (mem_writeFile dir _) with ⟨body, h1⟩ | ⟨code, body, _, h1⟩
      · rw [h1]
        exact hw
      · rw [h1]
        exact hw.filter _

theorem nodup_runUploads (reqs : List (Option Upload)) :
    ∀ dir : Dir, dir.Nodup → (runUploads dir reqs).Nodup := by
  induction reqs with
  | nil =>
    intro dir h
    exact h
  | cons r rest ih =>
    intro dir h
    have hrun : runUploads dir (r :: rest) = runUploads (postUpload r dir).2 rest := by
      simp [runUploads]
    rw [hrun]
    exact ih _ (nodup_postUpload r dir h)

/-- C8 fails as stated: of two uploads named in the same second the first
succeeds and the second, with an invalid phone, fails; the one successful
name is trivially distinct, and the failed upload has overwritten and deleted
the file of the successful one, so the listing is empty. -/
theorem C8_counterexample :
    (postUpload (some goodUpload) []).1 =
      .json 200 (successBody "contacts_20240101_000000.csv" 2) ∧
    successNames [] [some goodUpload, some badUpload] = ["contacts_20240101_000000.csv"] ∧
    listUploaded (runUploads [] [some goodUpload, some badUpload]) =
      .json 200 { files := some [], total_files := some 0 } := by
  refine ⟨by decide, by decide, by decide⟩

/-- C8, amended: starting from an empty upload directory, after a sequence of
upload requests served one after another of which exactly N succeed, and in
which no request whose file is stored, successful or not, has the generated
name of an earlier successful request, the listing answers with `total_files`
equal to N and with the generated names of the N successful requests as
`files`; and every answer of the listing has `total_files` equal to the length
of `files`. -/
theorem C8_listing_after_uploads (reqs : List (Option Upload)) (N : Nat)
    (hdistinct : reqs.Pairwise (fun a b => succeeds a = true → reusesName a b = false))
    (hN : (successNames [] reqs).length = N) :
    listUploaded (runUploads [] reqs) =
      .json 200 { files := some (successNames [] reqs), total_files := some N } ∧
    (successNames [] reqs).Nodup ∧
    ∀ dir : Dir, ∃ files,
      listUploaded dir =
        .json 200 { files := some files, total_files := some files.length } := by
  have hrun : runUploads [] reqs = successNames [] reqs := by
    rw [runUploads_eq reqs [] (fun _ _ h => by cases h) hdistinct]
    rfl
  refine ⟨?_, ?_, ?_⟩
  · rw [hrun, ← hN]
    simp [listUploaded, readdirSync]
  · rw [← hrun]
    exact nodup_runUploads reqs [] List.nodup_nil
  · intro dir
    exact ⟨dir, by simp [listUploaded, readdirSync]⟩

/-- A failed upload, a successful upload named in the same second, a text file
and a request without a file: the listing holds the one generated name. -/
theorem C8_listing_after_uploads_witness :
    listUploaded (runUploads [] [some badUpload, some goodUpload, some textUpload, none]) =
      .json 200
        { files :=
            some (successNames [] [some badUpload, some goodUpload, some textUpload, none]),
          total_files := some 1 } ∧
    (successNames [] [some badUpload, some goodUpload, some textUpload, none]).Nodup ∧
    ∀ dir : Dir, ∃ files,
      listUploaded dir =
        .json 200 { files := some files, total_files := some files.length } :=
  C8_listing_after_uploads [some badUpload, some goodUpload, some textUpload, none] 1
    (by decide) (by decide)

/-- C9 on a failing input: the stored file is gone from the directory when the
handler deletes it for an invalid phone, the delete throws, the `catch` block
deletes again and throws as well, and the handler ends without the answer
500. -/
theorem C9_delete_failure_escapes :
    uploadHandler (some sampleFile) { records := [abcRow], failure := none } [] =
      (.rejected "ENOENT: no such file or directory, unlink contacts_20240101_000000.csv",
        []) := by
  decide

/-- C10 on a failing input: the upload of `notes.txt` is not answered by the
handler with 400; the error of the filter goes to `next` and the handler is
skipped. -/
theorem C10_wrong_type_not_400 :
    postUpload (some textUpload) [] =
      (.nextError "Invalid file type. Please upload a CSV file", []) ∧
    ∀ body : Body, (postUpload (some textUpload) []).1 ≠ .json 400 body := by
  have h : postUpload (some textUpload) [] =
      (.nextError "Invalid file type. Please upload a CSV file", []) := by decide
  refine ⟨h, fun body hb => ?_⟩
  rw [h] at hb
  cases hb

end CsvServer
